import Mathlib

/-!
Verification of the casm-alloy-manager core (`prim_bin.py`) against its
natural-language specification.

The Python source is shallowly embedded below.  Costs returned by the external
structure-mapping oracles are real numbers in the source; they are modelled by
rationals (`ℚ`).  NumPy's NaN (used as the "undefined score" sentinel for a
configuration with no relaxed structure) is modelled by `none : Option ℚ`.
Python's fallible operations (`list[0]` on a possibly-empty list, tuple
unpacking of `str.split`, a raised `FileNotFoundError`) are modelled with
`Option`/`Except`.
-/

namespace PrimBin

/-- A mapping report produced by the external oracle; the ranking engine only
reads its `cost` field. -/
structure MappingReport where
  cost : ℚ
deriving DecidableEq

/-- An oracle bound to one prototype: `cu.mapping.structure.StructureMapper`
viewed through its call protocol, `Structure -> ordered list of reports`.
The candidate-structure type is never inspected by the ranking engine, so it
is a type parameter. -/
def Mapper (σ : Type) : Type := σ → List MappingReport

/-- `[m(p)[0].cost for m in mappers]`: the best-mapping cost of structure `s`
against every mapper, failing (Python `IndexError`) if some oracle returns an
empty report list. -/
def bestCosts {σ : Type} (s : σ) : List (Mapper σ) → Option (List ℚ)
  | [] => some []
  | m :: ms => do
    let r ← (m s).head?
    let rest ← bestCosts s ms
    return r.cost :: rest

/-- One row of the score matrix: per-oracle best costs for a present
structure, or `len(mappers) * [np.nan]` for an absent (`None`) one. -/
def scoresRow {σ : Type} (mappers : List (Mapper σ)) : Option σ → Option (List (Option ℚ))
  | some p => (bestCosts p mappers).map (fun cs => cs.map some)
  | none => some (List.replicate mappers.length none)

/-- The full score matrix (`scores` in the source), one row per configuration. -/
def computeScores {σ : Type} (mappers : List (Mapper σ)) :
    List (Option σ) → Option (List (List (Option ℚ)))
  | [] => some []
  | p :: ps => do
    let r ← scoresRow mappers p
    let rest ← computeScores mappers ps
    return r :: rest

/-- Strict comparison of score cells, NaN-aware as in NumPy sorting: every
number sorts strictly before NaN (`none`), and NaNs do not compare. -/
def cellLT : Option ℚ → Option ℚ → Bool
  | some a, some b => decide (a < b)
  | some _, none => true
  | none, _ => false

/-- Index comparison for the model of `np.argsort` on one row: index `i`
precedes index `j` when its score cell is strictly smaller.  The tie clause
(equal cells, lower original index first) picks one deterministic total order;
NumPy's default `kind` of `argsort` is documented as not stable, so for rows
of equal scores longer than its small-array insertion-sort cutoff the
program's tie order is not guaranteed to match this clause.  Every theorem
below that is proved with this model has a conclusion independent of the tie
order (rows wholly overwritten by the NaN mask, empty rows, permutation-only
facts, or rows short enough for NumPy's stable small-array path). -/
def argsortLE (row : List (Option ℚ)) (i j : ℕ) : Prop :=
  cellLT (row.getD i none) (row.getD j none) = true ∨
    (row.getD i none = row.getD j none ∧ i ≤ j)

instance argsortLE.instDecidableRel (row : List (Option ℚ)) :
    DecidableRel (argsortLE row) := fun _ _ => inferInstanceAs (Decidable (_ ∨ _))

/-- Model of `np.argsort` applied to one row: the original indices `0..m-1`
ordered ascending by score (tie order as idealised in `argsortLE`). -/
def argsortRow (row : List (Option ℚ)) : List ℕ :=
  List.insertionSort (argsortLE row) (List.range row.length)

/-- The NaN mask applied to one cell: `ranks[mask] = -1` overwrites the rank
entry at every position whose *score* is NaN. -/
def maskCell (r : ℕ) : Option ℚ → ℤ
  | none => (-1 : ℤ)
  | some _ => (r : ℤ)

/-- One output row: the argsorted indices with the NaN mask applied. -/
def rankRow (row : List (Option ℚ)) : List ℤ :=
  List.zipWith maskCell (argsortRow row) row

/-- `rank_relaxed_structure_mapping_scores(mappers, relaxed_structures)` from
`prim_bin.py`: score every configuration against every mapper, argsort each
row, and overwrite NaN (absent-configuration) positions with `-1`.  `none`
as a result models a raised `IndexError` (an oracle returned no report). -/
def rank_relaxed_structure_mapping_scores {σ : Type} (mappers : List (Mapper σ))
    (relaxed_structures : List (Option σ)) : Option (List (List ℤ)) :=
  (computeScores mappers relaxed_structures).map (fun scores => scores.map rankRow)

/-! ### Structural lemmas about the ranking engine -/

theorem argsortRow_perm (row : List (Option ℚ)) :
    (argsortRow row).Perm (List.range row.length) :=
  List.perm_insertionSort _ _

theorem argsortRow_length (row : List (Option ℚ)) :
    (argsortRow row).length = row.length := by
  simpa using (argsortRow_perm row).length_eq

theorem rankRow_length (row : List (Option ℚ)) : (rankRow row).length = row.length := by
  simp [rankRow, argsortRow_length]

theorem zipWith_maskCell_replicate_none :
    ∀ (l : List ℕ) (m : ℕ), l.length = m →
      List.zipWith maskCell l (List.replicate m (none : Option ℚ)) =
        List.replicate m (-1 : ℤ)
  | [], 0, _ => rfl
  | x :: l, m + 1, h => by
    simp only [List.replicate_succ, List.zipWith_cons_cons, maskCell]
    exact congrArg _ (zipWith_maskCell_replicate_none l m (by simpa using h))

theorem zipWith_maskCell_map_some :
    ∀ (l : List ℕ) (cs : List ℚ), l.length = cs.length →
      List.zipWith maskCell l (cs.map some) = l.map (fun r : ℕ => (r : ℤ))
  | [], [], _ => rfl
  | x :: l, c :: cs, h => by
    simp only [List.map_cons, List.zipWith_cons_cons, maskCell]
    exact congrArg _ (zipWith_maskCell_map_some l cs (by simpa using h))
  | [], _ :: _, h => by simp at h
  | _ :: _, [], h => by simp at h

theorem rankRow_replicate_none (m : ℕ) :
    rankRow (List.replicate m (none : Option ℚ)) = List.replicate m (-1 : ℤ) := by
  have h := argsortRow_length (List.replicate m (none : Option ℚ))
  simp only [List.length_replicate] at h
  exact zipWith_maskCell_replicate_none _ m h

theorem rankRow_map_some (cs : List ℚ) :
    rankRow (cs.map some) = (argsortRow (cs.map some)).map (fun r : ℕ => (r : ℤ)) := by
  have h := argsortRow_length (cs.map some)
  simp only [List.length_map] at h
  exact zipWith_maskCell_map_some _ cs h

theorem bestCosts_length {σ : Type} {s : σ} :
    ∀ {ms : List (Mapper σ)} {cs : List ℚ}, bestCosts s ms = some cs →
      cs.length = ms.length := by
  intro ms
  induction ms with
  | nil => intro cs h; simp [bestCosts] at h; simp [← h]
  | cons m ms ih =>
    intro cs h
    simp only [bestCosts, Option.bind_eq_bind, bind, Option.bind] at h
    cases hh : (m s).head? with
    | none => rw [hh] at h; exact absurd h (by simp)
    | some r =>
      rw [hh] at h
      cases hrest : bestCosts s ms with
      | none => rw [hrest] at h; exact absurd h (by simp)
      | some rest =>
        rw [hrest] at h
        simp only [Option.pure_def, Option.some.injEq] at h
        subst h
        simp [ih hrest]

theorem scoresRow_length {σ : Type} {mappers : List (Mapper σ)} {p : Option σ}
    {r : List (Option ℚ)} (h : scoresRow mappers p = some r) :
    r.length = mappers.length := by
  cases p with
  | none =>
    simp only [scoresRow, Option.some.injEq] at h
    simp [← h]
  | some s =>
    simp only [scoresRow] at h
    cases hbc : bestCosts s mappers with
    | none => rw [hbc] at h; simp at h
    | some cs =>
      rw [hbc] at h
      simp only [Option.map_some', Option.some.injEq] at h
      subst h
      simp [bestCosts_length hbc]

theorem computeScores_length {σ : Type} {mappers : List (Mapper σ)} :
    ∀ {l : List (Option σ)} {S : List (List (Option ℚ))},
      computeScores mappers l = some S → S.length = l.length := by
  intro l
  induction l with
  | nil => intro S h; simp [computeScores] at h; simp [← h]
  | cons p ps ih =>
    intro S h
    simp only [computeScores, Option.bind_eq_bind, bind, Option.bind] at h
    cases hr : scoresRow mappers p with
    | none => rw [hr] at h; exact absurd h (by simp)
    | some r =>
      rw [hr] at h
      cases hrest : computeScores mappers ps with
      | none => rw [hrest] at h; exact absurd h (by simp)
      | some rest =>
        rw [hrest] at h
        simp only [Option.pure_def, Option.some.injEq] at h
        subst h
        simp [ih hrest]

theorem computeScores_getElem? {σ : Type} {mappers : List (Mapper σ)} :
    ∀ {l : List (Option σ)} {S : List (List (Option ℚ))},
      computeScores mappers l = some S →
      ∀ {i : ℕ} {p : Option σ}, l[i]? = some p →
        ∃ r, scoresRow mappers p = some r ∧ S[i]? = some r := by
  intro l
  induction l with
  | nil => intro S _ i p hp; simp at hp
  | cons q ps ih =>
    intro S h i p hp
    simp only [computeScores, Option.bind_eq_bind, bind, Option.bind] at h
    cases hr : scoresRow mappers q with
    | none => rw [hr] at h; exact absurd h (by simp)
    | some r =>
      rw [hr] at h
      cases hrest : computeScores mappers ps with
      | none => rw [hrest] at h; exact absurd h (by simp)
      | some rest =>
        rw [hrest] at h
        simp only [Option.pure_def, Option.some.injEq] at h
        subst h
        cases i with
        | zero =>
          simp only [List.getElem?_cons_zero, Option.some.injEq] at hp
          subst hp
          exact ⟨r, hr, by simp⟩
        | succ n =>
          simp only [List.getElem?_cons_succ] at hp
          obtain ⟨r', hr', hS'⟩ := ih hrest hp
          exact ⟨r', hr', by simpa using hS'⟩

theorem computeScores_mem {σ : Type} {mappers : List (Mapper σ)} :
    ∀ {l : List (Option σ)} {S : List (List (Option ℚ))},
      computeScores mappers l = some S →
      ∀ r ∈ S, ∃ p ∈ l, scoresRow mappers p = some r := by
  intro l
  induction l with
  | nil => intro S h r hr; simp [computeScores] at h; subst h; simp at hr
  | cons q ps ih =>
    intro S h r hr
    simp only [computeScores, Option.bind_eq_bind, bind, Option.bind] at h
    cases hq : scoresRow mappers q with
    | none => rw [hq] at h; exact absurd h (by simp)
    | some r0 =>
      rw [hq] at h
      cases hrest : computeScores mappers ps with
      | none => rw [hrest] at h; exact absurd h (by simp)
      | some rest =>
        rw [hrest] at h
        simp only [Option.pure_def, Option.some.injEq] at h
        subst h
        rcases List.mem_cons.mp hr with rfl | hr'
        · exact ⟨q, List.mem_cons_self .., hq⟩
        · obtain ⟨p, hp, hps⟩ := ih hrest r hr'
          exact ⟨p, List.mem_cons_of_mem _ hp, hps⟩

theorem computeScores_nil_mappers {σ : Type} (l : List (Option σ)) :
    computeScores ([] : List (Mapper σ)) l = some (l.map fun _ => []) := by
  induction l with
  | nil => rfl
  | cons p ps ih =>
    cases p <;>
      simp [computeScores, scoresRow, bestCosts, ih, Option.bind_eq_bind]

/-! ### Claim theorems for the ranking engine -/

/-- C1: for every list of mappers and every list of optional structures, if
configuration i's structure is absent (`None`), then every entry of output row
i of the rank matrix produced by `rank_relaxed_structure_mapping_scores` is the
sentinel `-1`: row i equals `[-1, ..., -1]` of length `len(mappers)`.  The
absence is recovered locally into the sentinel row (the result is still an
ordinary matrix), not surfaced as an error. -/
theorem c1_absent_configuration_sentinel_row {σ : Type}
    (mappers : List (Mapper σ)) (relaxed_structures : List (Option σ))
    (M : List (List ℤ)) (i : ℕ)
    (hM : rank_relaxed_structure_mapping_scores mappers relaxed_structures = some M)
    (hi : relaxed_structures[i]? = some none) :
    M[i]? = some (List.replicate mappers.length (-1 : ℤ)) := by
  unfold rank_relaxed_structure_mapping_scores at hM
  cases hS : computeScores mappers relaxed_structures with
  | none => rw [hS] at hM; simp at hM
  | some S =>
    rw [hS] at hM
    simp only [Option.map_some', Option.some.injEq] at hM
    subst hM
    obtain ⟨r, hr, hSi⟩ := computeScores_getElem? hS hi
    simp only [scoresRow, Option.some.injEq] at hr
    subst hr
    rw [List.getElem?_map, hSi]
    simp [rankRow_replicate_none]

/-- A trivial oracle over ℕ-coded structures used by witnesses: constant cost 5. -/
def constMapper : Mapper ℕ := fun _ => [⟨5⟩]

theorem c1_witness :
    rank_relaxed_structure_mapping_scores [constMapper] [(none : Option ℕ)]
        = some [[-1]] ∧
      ([[(-1 : ℤ)]] : List (List ℤ))[0]? = some (List.replicate 1 (-1 : ℤ)) :=
  ⟨by decide,
    c1_absent_configuration_sentinel_row [constMapper] [none] [[-1]] 0
      (by decide) (by decide)⟩

/-- The first C2 oracle: best-mapping cost 0.01 against configuration 0 and
5.0 against every other configuration. -/
def c2mapper0 : Mapper ℕ := fun s => [⟨if s = 0 then mkRat 1 100 else 5⟩]

/-- The second C2 oracle: best-mapping cost 5.0 against configuration 0 and
0.01 against every other configuration. -/
def c2mapper1 : Mapper ℕ := fun s => [⟨if s = 0 then 5 else mkRat 1 100⟩]

/-- The cost literal used by the C2 oracles is exactly 0.01. -/
theorem c2mapper_cost_value : (mkRat 1 100 : ℚ) = 1 / 100 := by norm_num

/-- C2: with 2 oracles and 3 configurations, where configuration 0's
best-mapping costs are [0.01, 5.0], configuration 1's are [5.0, 0.01], and
configuration 2's structure is absent, the rank matrix is exactly
[[0,1],[1,0],[-1,-1]]: each present row lists original prototype indices in
ascending order of cost, with column 0 naming the best-fitting prototype. -/
theorem c2_concrete_rank_matrix :
    rank_relaxed_structure_mapping_scores [c2mapper0, c2mapper1]
      [some 0, some 1, none] = some [[0, 1], [1, 0], [-1, -1]] := by
  decide

/-- C8: zero configurations gives the empty matrix, and zero oracles gives one
empty row per configuration — in both cases an ordinary value (`some`), never
an error. -/
theorem c8_empty_inputs {σ : Type} (mappers : List (Mapper σ))
    (relaxed_structures : List (Option σ)) :
    rank_relaxed_structure_mapping_scores mappers ([] : List (Option σ))
        = some [] ∧
      rank_relaxed_structure_mapping_scores ([] : List (Mapper σ))
          relaxed_structures
        = some (relaxed_structures.map fun _ => ([] : List ℤ)) := by
  refine ⟨rfl, ?_⟩
  unfold rank_relaxed_structure_mapping_scores
  rw [computeScores_nil_mappers]
  have h0 : rankRow [] = [] := rfl
  simp [h0]

/-- C10: in a rank matrix produced by `rank_relaxed_structure_mapping_scores`,
the matrix has one row per configuration, every row has one entry per oracle,
and every row belonging to a present (non-`None`) configuration is a
permutation of the prototype indices `{0, ..., m-1}` in which the sentinel
`-1` never occurs. -/
theorem c10_present_rows_are_permutations {σ : Type} (mappers : List (Mapper σ))
    (relaxed_structures : List (Option σ)) (M : List (List ℤ))
    (hM : rank_relaxed_structure_mapping_scores mappers relaxed_structures = some M) :
    M.length = relaxed_structures.length ∧
      (∀ row ∈ M, row.length = mappers.length) ∧
      ∀ (i : ℕ) (s : σ), relaxed_structures[i]? = some (some s) →
        ∃ row, M[i]? = some row ∧
          row.Perm ((List.range mappers.length).map fun j : ℕ => (j : ℤ)) ∧
          (-1 : ℤ) ∉ row := by
  unfold rank_relaxed_structure_mapping_scores at hM
  cases hS : computeScores mappers relaxed_structures with
  | none => rw [hS] at hM; simp at hM
  | some S =>
    rw [hS] at hM
    simp only [Option.map_some', Option.some.injEq] at hM
    subst hM
    refine ⟨?_, ?_, ?_⟩
    · simp [computeScores_length hS]
    · intro row hrow
      obtain ⟨r, hrS, rfl⟩ := List.mem_map.mp hrow
      obtain ⟨p, _, hp⟩ := computeScores_mem hS r hrS
      rw [rankRow_length, scoresRow_length hp]
    · intro i s hi
      obtain ⟨r, hr, hSi⟩ := computeScores_getElem? hS hi
      simp only [scoresRow] at hr
      cases hbc : bestCosts s mappers with
      | none => rw [hbc] at hr; simp at hr
      | some cs =>
        rw [hbc] at hr
        simp only [Option.map_some', Option.some.injEq] at hr
        subst hr
        refine ⟨rankRow (cs.map some), ?_, ?_, ?_⟩
        · rw [List.getElem?_map, hSi]; rfl
        · rw [rankRow_map_some]
          have hperm := argsortRow_perm (cs.map some)
          have hlen : (cs.map some).length = mappers.length := by
            simp [bestCosts_length hbc]
          rw [hlen] at hperm
          exact hperm.map _
        · rw [rankRow_map_some]
          intro hmem
          obtain ⟨k, _, hk⟩ := List.mem_map.mp hmem
          omega

theorem c10_witness :
    ∃ row, ([[(0 : ℤ)]] : List (List ℤ))[0]? = some row ∧
      row.Perm ((List.range 1).map fun j : ℕ => (j : ℤ)) ∧ (-1 : ℤ) ∉ row :=
  (c10_present_rows_are_permutations [constMapper] [some 0] [[0]]
    (by decide)).2.2 0 0 (by decide)

/-! ### Crystal-structure data model (casmutils boundary) -/

/-- A 3-component coordinate vector. -/
structure Vec3 where
  x : ℚ
  y : ℚ
  z : ℚ
deriving DecidableEq

/-- Modelled from the spec: the casmutils Lattice — "three basis vectors (a
3×3 real matrix), immutable once constructed" (`cu.xtal.Lattice(a, b, c)`). -/
structure Lattice where
  a : Vec3
  b : Vec3
  c : Vec3
deriving DecidableEq

/-- Modelled from the spec: a casmutils Coordinate holds one spatial position;
the bare constructor `cu.xtal.Coordinate(xyz)` takes the position as
already-Cartesian and stores it unchanged. -/
structure Coordinate where
  cart : Vec3
deriving DecidableEq

/-- Modelled from the spec: `cu.xtal.Coordinate.from_fractional(frac, lat)` —
positions "stored as fractional coordinates relative to a Lattice, convertible
to Cartesian": the linear combination of the lattice vectors with the
fractional components. -/
def Coordinate.from_fractional (f : Vec3) (lat : Lattice) : Coordinate :=
  ⟨⟨f.x * lat.a.x + f.y * lat.b.x + f.z * lat.c.x,
    f.x * lat.a.y + f.y * lat.b.y + f.z * lat.c.y,
    f.x * lat.a.z + f.y * lat.b.z + f.z * lat.c.z⟩⟩

/-- Modelled from the spec: `cu.xtal.Site(coordinate, label)` — a position plus
one occupying species label. -/
structure Site where
  coordinate : Coordinate
  label : String
deriving DecidableEq

/-- Modelled from the spec: `cu.xtal.Structure(lattice, basis)` — a Lattice
plus an ordered list of Sites. -/
structure Structure where
  lattice : Lattice
  basis : List Site
deriving DecidableEq

/-- The fields of a `properties.calc.json` dictionary (a Relaxation Record)
used by the Structure Reconstructor. -/
structure CalcProperties where
  relaxed_lattice : Vec3 × Vec3 × Vec3
  atom_type : List String
  atoms_per_type : List ℕ
  relaxed_basis : List Vec3

/-- `make_lattice(properties)` from `prim_bin.py`:
`cu.xtal.Lattice(*properties["relaxed_lattice"])`. -/
def make_lattice (properties : CalcProperties) : Lattice :=
  ⟨properties.relaxed_lattice.1, properties.relaxed_lattice.2.1,
    properties.relaxed_lattice.2.2⟩

/-- The block run-length expansion from `make_basis`:
`[x for tt in [c * [t] for c, t in zip(types_count, types)] for x in tt]`. -/
def types_roll (types_count : List ℕ) (types : List String) : List String :=
  ((types_count.zip types).map (fun ct => List.replicate ct.1 ct.2)).flatten

/-- `make_basis(properties)` from `prim_bin.py`: zip the fractional basis
positions with the expanded species list into Sites.  Python's `zip` stops at
the shorter of the two lists; the source performs no length validation and
raises nothing. -/
def make_basis (properties : CalcProperties) : List Site :=
  let lat := make_lattice properties
  (properties.relaxed_basis.zip
      (types_roll properties.atoms_per_type properties.atom_type)).map
    fun ft => Site.mk (Coordinate.from_fractional ft.1 lat) ft.2

/-- `make_structure(properties)` from `prim_bin.py`. -/
def make_structure (properties : CalcProperties) : Structure :=
  ⟨make_lattice properties, make_basis properties⟩

/-- One entry of a prim file's `"basis"` list. -/
structure PrimBasisSite where
  occupant_dof : List String
  coordinate : Vec3
deriving DecidableEq

/-- The fields of a `prim.json` dictionary (a Prototype Record) used by the
Prototype Builder. -/
structure PrimRecord where
  lattice_vectors : Vec3 × Vec3 × Vec3
  coordinate_mode : String
  basis : List PrimBasisSite

/-- `make_allowed_species(prim)`: the ordered per-site occupant-DOF lists,
unmodified. -/
def make_allowed_species (prim : PrimRecord) : List (List String) :=
  prim.basis.map (fun site => site.occupant_dof)

/-- `cu.xtal.Lattice(*prim["lattice_vectors"])` inside `make_prim`. -/
def primLattice (prim : PrimRecord) : Lattice :=
  ⟨prim.lattice_vectors.1, prim.lattice_vectors.2.1, prim.lattice_vectors.2.2⟩

/-- `[site["occupant_dof"][0] for site in prim["basis"]]`: the first occupant
of every site, failing (Python `IndexError`) on an empty occupant list. -/
def headSpecies : List PrimBasisSite → Option (List String)
  | [] => some []
  | s :: rest => do
    let h ← s.occupant_dof.head?
    let t ← headSpecies rest
    return h :: t

/-- The coordinate branch of `make_prim`, keyed by the leading character `c0`
of the coordinate-mode flag: `if prim["coordinate_mode"][0] in "fF"` the
positions are fractional and converted through the lattice, else they are
used unchanged as Cartesian. -/
def primCoords (prim : PrimRecord) (c0 : Char) : List Coordinate :=
  if c0 = 'f' ∨ c0 = 'F' then
    prim.basis.map (fun site => Coordinate.from_fractional site.coordinate (primLattice prim))
  else
    prim.basis.map (fun site => Coordinate.mk site.coordinate)

/-- `make_prim(prim)` from `prim_bin.py`: select each site's first occupant
(`IndexError` on an empty occupant list), read the leading character of
`prim["coordinate_mode"]` (`IndexError` when the flag is the empty string),
branch on it for the coordinates, and zip coordinates with species into the
realized Structure. -/
def make_prim (prim : PrimRecord) : Option Structure := do
  let species ← headSpecies prim.basis
  let c0 ← prim.coordinate_mode.data.head?
  return Structure.mk (primLattice prim)
    (((primCoords prim c0).zip species).map fun cs => Site.mk cs.1 cs.2)

/-! ### Lemmas about the Structure Reconstructor and Prototype Builder -/

theorem headSpecies_forall₂ :
    ∀ {bs : List PrimBasisSite} {sp : List String}, headSpecies bs = some sp →
      List.Forall₂ (fun b s => b.occupant_dof.head? = some s) bs sp := by
  intro bs
  induction bs with
  | nil =>
    intro sp h
    simp only [headSpecies, Option.some.injEq] at h
    subst h
    exact List.Forall₂.nil
  | cons b bs ih =>
    intro sp h
    simp only [headSpecies, Option.bind_eq_bind, bind, Option.bind] at h
    cases hh : b.occupant_dof.head? with
    | none => rw [hh] at h; exact absurd h (by simp)
    | some s =>
      rw [hh] at h
      cases hrest : headSpecies bs with
      | none => rw [hrest] at h; exact absurd h (by simp)
      | some rest =>
        rw [hrest] at h
        simp only [Option.pure_def, Option.some.injEq] at h
        subst h
        exact List.Forall₂.cons hh (ih hrest)

theorem headSpecies_length {bs : List PrimBasisSite} {sp : List String}
    (h : headSpecies bs = some sp) : sp.length = bs.length :=
  (headSpecies_forall₂ h).length_eq.symm

theorem make_prim_eq {prim : PrimRecord} {sp : List String} {c0 : Char}
    (hsp : headSpecies prim.basis = some sp)
    (hc : prim.coordinate_mode.data.head? = some c0) :
    make_prim prim = some (Structure.mk (primLattice prim)
      (((primCoords prim c0).zip sp).map fun cs => Site.mk cs.1 cs.2)) := by
  unfold make_prim
  rw [hsp, hc]
  rfl

theorem make_prim_some_elim {prim : PrimRecord} {st : Structure}
    (h : make_prim prim = some st) :
    ∃ sp c0, headSpecies prim.basis = some sp ∧
      prim.coordinate_mode.data.head? = some c0 ∧
      st = Structure.mk (primLattice prim)
        (((primCoords prim c0).zip sp).map fun cs => Site.mk cs.1 cs.2) := by
  unfold make_prim at h
  cases hsp : headSpecies prim.basis with
  | none => rw [hsp] at h; simp at h
  | some sp =>
    rw [hsp] at h
    cases hc : prim.coordinate_mode.data.head? with
    | none => rw [hc] at h; simp at h
    | some c0 =>
      rw [hc] at h
      simp only [Option.bind_eq_bind, Option.some_bind, Option.pure_def,
        Option.some.injEq] at h
      exact ⟨sp, c0, rfl, rfl, h.symm⟩

theorem basis_coordinates {coords : List Coordinate} {sp : List String}
    (h : coords.length ≤ sp.length) :
    ((coords.zip sp).map fun cs => Site.mk cs.1 cs.2).map Site.coordinate
      = coords := by
  rw [List.map_map]
  have hcomp : (Site.coordinate ∘ fun cs : Coordinate × String => Site.mk cs.1 cs.2)
      = Prod.fst := rfl
  rw [hcomp]
  exact List.map_fst_zip _ _ h

theorem forall₂_sites_of_headSpecies {f : PrimBasisSite → Coordinate} :
    ∀ {bs : List PrimBasisSite} {sp : List String},
      List.Forall₂ (fun b s => b.occupant_dof.head? = some s) bs sp →
      List.Forall₂ (fun b site => b.occupant_dof.head? = some site.label)
        bs (((bs.map f).zip sp).map fun cs => Site.mk cs.1 cs.2) := by
  intro bs sp h
  induction h with
  | nil => exact List.Forall₂.nil
  | cons hbs _ ih =>
    simp only [List.map_cons, List.zip_cons_cons]
    exact List.Forall₂.cons hbs ih

/-! ### Claim theorems for the Structure Reconstructor (C3, C4) -/

/-- C3 (amended): `make_basis` performs no shape validation and never fails.
It zips basis positions with the expanded species list, truncating to the
shorter of the two, so when `sum(atoms_per_type)` (the expansion length)
differs from `len(relaxed_basis)`, sites are silently dropped rather than a
`ShapeMismatch` error being raised. -/
theorem c3_make_basis_truncates (properties : CalcProperties) :
    (make_basis properties).length
      = min properties.relaxed_basis.length
          (types_roll properties.atoms_per_type properties.atom_type).length := by
  unfold make_basis
  simp [List.length_zip]

/-- A Relaxation Record whose species counts promise 2 atoms but whose basis
holds a single position: `sum(atoms_per_type) = 2 ≠ 1 = len(relaxed_basis)`. -/
def c3badProps : CalcProperties :=
  { relaxed_lattice := (⟨1, 0, 0⟩, ⟨0, 1, 0⟩, ⟨0, 0, 1⟩)
    atom_type := ["Ni"]
    atoms_per_type := [2]
    relaxed_basis := [⟨0, 0, 0⟩] }

/-- C3 counterexample: on a record with `sum(atoms_per_type) = 2` but only one
basis position, `make_basis` does not fail with `ShapeMismatch`; it silently
returns a one-site basis (a site of the record has been dropped). -/
theorem c3_counterexample :
    c3badProps.atoms_per_type.sum = 2 ∧
      c3badProps.relaxed_basis.length = 1 ∧
      make_basis c3badProps
        = [Site.mk (Coordinate.mk ⟨0, 0, 0⟩) "Ni"] := by
  refine ⟨by decide, by decide, ?_⟩
  simp [make_basis, make_lattice, c3badProps, types_roll,
    Coordinate.from_fractional]

/-- C4: the block run-length expansion for `atoms_per_type = [2,1]`,
`atom_type = ["Ni","Al"]` is `["Ni","Ni","Al"]` (independent of the basis
positions, which `types_roll` never reads), and in general the site at flat
position k of `make_basis` carries the k-th entry of the expansion. -/
theorem c4_species_alignment :
    types_roll [2, 1] ["Ni", "Al"] = ["Ni", "Ni", "Al"] ∧
      ∀ (properties : CalcProperties) (k : ℕ) (site : Site),
        (make_basis properties)[k]? = some site →
        (types_roll properties.atoms_per_type properties.atom_type)[k]?
          = some site.label := by
  refine ⟨by decide, ?_⟩
  intro properties k site hsite
  unfold make_basis at hsite
  rw [List.getElem?_map] at hsite
  cases hz : (properties.relaxed_basis.zip
      (types_roll properties.atoms_per_type properties.atom_type))[k]? with
  | none => rw [hz] at hsite; simp at hsite
  | some ft =>
    rw [hz] at hsite
    simp only [Option.map_some', Option.some.injEq] at hsite
    have hft := List.getElem?_zip_eq_some.mp hz
    rw [hft.2, ← hsite]

/-- The Relaxation Record used by the C4 witness: 2 Ni atoms then 1 Al atom. -/
def c4props : CalcProperties :=
  { relaxed_lattice := (⟨1, 0, 0⟩, ⟨0, 1, 0⟩, ⟨0, 0, 1⟩)
    atom_type := ["Ni", "Al"]
    atoms_per_type := [2, 1]
    relaxed_basis := [⟨0, 0, 0⟩, ⟨1, 0, 0⟩, ⟨0, 1, 0⟩] }

theorem c4_witness :
    (make_basis c4props)[2]?
        = some (Site.mk (Coordinate.mk ⟨0, 1, 0⟩) "Al") ∧
      (types_roll c4props.atoms_per_type c4props.atom_type)[2]?
        = some (Site.mk (Coordinate.mk ⟨0, 1, 0⟩) "Al").label :=
  ⟨by simp [make_basis, make_lattice, c4props, types_roll,
      Coordinate.from_fractional],
    c4_species_alignment.2 c4props 2 (Site.mk (Coordinate.mk ⟨0, 1, 0⟩) "Al")
      (by simp [make_basis, make_lattice, c4props, types_roll,
        Coordinate.from_fractional])⟩

/-! ### Claim theorems for the Prototype Builder (C5, C6) -/

/-- C5 (amended): for every Prototype Record whose coordinate-mode flag is
non-empty (leading character `c0`) and whose occupant-DOF lists are all
non-empty, `make_prim` succeeds with no error; the positions are interpreted
as fractional — converted through the Lattice — exactly when `c0` is `f` or
`F`, and for every other leading character (including `D` of `"Direct"`) the
raw positions are used unchanged as Cartesian.  (The original claim's "every
other flag value, with no error" fails only for the empty flag, which raises
an IndexError — see the counterexample.) -/
theorem c5_coordinate_mode_branch (prim : PrimRecord) (sp : List String)
    (c0 : Char) (hsp : headSpecies prim.basis = some sp)
    (hc : prim.coordinate_mode.data.head? = some c0) :
    ∃ st, make_prim prim = some st ∧
      ((c0 = 'f' ∨ c0 = 'F') →
        st.basis.map Site.coordinate
          = prim.basis.map fun site =>
              Coordinate.from_fractional site.coordinate (primLattice prim)) ∧
      (¬(c0 = 'f' ∨ c0 = 'F') →
        st.basis.map Site.coordinate
          = prim.basis.map fun site => Coordinate.mk site.coordinate) := by
  have hlen : (primCoords prim c0).length ≤ sp.length := by
    rw [headSpecies_length hsp]
    unfold primCoords
    split <;> simp
  refine ⟨_, make_prim_eq hsp hc, ?_, ?_⟩ <;> intro hcc
  · have hb : (Structure.mk (primLattice prim)
        (((primCoords prim c0).zip sp).map fun cs => Site.mk cs.1 cs.2)).basis
          = ((primCoords prim c0).zip sp).map fun cs => Site.mk cs.1 cs.2 := rfl
    rw [hb, basis_coordinates hlen]
    unfold primCoords
    rw [if_pos hcc]
  · have hb : (Structure.mk (primLattice prim)
        (((primCoords prim c0).zip sp).map fun cs => Site.mk cs.1 cs.2)).basis
          = ((primCoords prim c0).zip sp).map fun cs => Site.mk cs.1 cs.2 := rfl
    rw [hb, basis_coordinates hlen]
    unfold primCoords
    rw [if_neg hcc]

/-- The Prototype Record used by the C5 witness: mode `"Direct"` over a
non-identity (doubled) lattice, one site at raw position (1,1,1). -/
def c5prim : PrimRecord :=
  { lattice_vectors := (⟨2, 0, 0⟩, ⟨0, 2, 0⟩, ⟨0, 0, 2⟩)
    coordinate_mode := "Direct"
    basis := [⟨["Ni"], ⟨1, 1, 1⟩⟩] }

theorem c5_witness :
    ∃ st, make_prim c5prim = some st ∧
      (('D' = 'f' ∨ 'D' = 'F') →
        st.basis.map Site.coordinate
          = c5prim.basis.map fun site =>
              Coordinate.from_fractional site.coordinate (primLattice c5prim)) ∧
      (¬('D' = 'f' ∨ 'D' = 'F') →
        st.basis.map Site.coordinate
          = c5prim.basis.map fun site => Coordinate.mk site.coordinate) :=
  c5_coordinate_mode_branch c5prim ["Ni"] 'D' (by decide) (by decide)

/-- A Prototype Record whose coordinate-mode flag is the empty string. -/
def c5emptyModePrim : PrimRecord :=
  { lattice_vectors := (⟨1, 0, 0⟩, ⟨0, 1, 0⟩, ⟨0, 0, 1⟩)
    coordinate_mode := ""
    basis := [⟨["Ni"], ⟨1, 2, 3⟩⟩] }

/-- C5 counterexample: the claim says every flag value other than a leading
f/F — hence also the empty string — falls into the Cartesian branch with no
error, which would realize the structure with the raw position unchanged; but
on `coordinate_mode = ""` the source evaluates `""[0]` and raises an
IndexError, producing no structure at all. -/
theorem c5_counterexample :
    make_prim c5emptyModePrim = none ∧
      make_prim c5emptyModePrim
        ≠ some (Structure.mk (primLattice c5emptyModePrim)
            [Site.mk (Coordinate.mk ⟨1, 2, 3⟩) "Ni"]) := by
  have hnone : make_prim c5emptyModePrim = none := by decide
  exact ⟨hnone, by simp [hnone]⟩

/-- C6: every site of the realized Structure produced by `make_prim` is
occupied by the first entry of that site's occupant-DOF list: the bases are
aligned pointwise and each realized label is the head of the corresponding
occupant-DOF list (even when that list has further entries). -/
theorem c6_default_occupant_selection (prim : PrimRecord) (st : Structure)
    (h : make_prim prim = some st) :
    List.Forall₂ (fun b site => b.occupant_dof.head? = some site.label)
      prim.basis st.basis := by
  obtain ⟨sp, c0, hsp, _, rfl⟩ := make_prim_some_elim h
  have hf := headSpecies_forall₂ hsp
  unfold primCoords
  split
  · exact forall₂_sites_of_headSpecies hf
  · exact forall₂_sites_of_headSpecies hf

/-- The Prototype Record used by the C6 witness: the first site has the
multi-entry occupant list ["Ni","Va"] and must realize "Ni". -/
def c6prim : PrimRecord :=
  { lattice_vectors := (⟨1, 0, 0⟩, ⟨0, 1, 0⟩, ⟨0, 0, 1⟩)
    coordinate_mode := "Fractional"
    basis := [⟨["Ni", "Va"], ⟨0, 0, 0⟩⟩, ⟨["Al", "Ni"], ⟨1, 1, 1⟩⟩] }

/-- The Structure that `make_prim` realizes from `c6prim`. -/
def c6primSt : Structure :=
  ⟨⟨⟨1, 0, 0⟩, ⟨0, 1, 0⟩, ⟨0, 0, 1⟩⟩,
    [Site.mk (Coordinate.mk ⟨0, 0, 0⟩) "Ni",
      Site.mk (Coordinate.mk ⟨1, 1, 1⟩) "Al"]⟩

theorem c6_witness :
    make_prim c6prim = some c6primSt ∧
      List.Forall₂ (fun b site => b.occupant_dof.head? = some site.label)
        c6prim.basis c6primSt.basis :=
  ⟨by simp [make_prim, headSpecies, c6prim, c6primSt, primCoords, primLattice,
      Coordinate.from_fractional],
    c6_default_occupant_selection c6prim c6primSt
      (by simp [make_prim, headSpecies, c6prim, c6primSt, primCoords,
        primLattice, Coordinate.from_fractional])⟩

/-! ### Project filesystem (path lookup with two error policies) -/

/-- A raised Python exception from the filesystem layer. -/
inductive PyError where
  | fileNotFound (path : String)
  | valueError
deriving DecidableEq

/-- The state of the host filesystem, abstracted as which paths exist
(`os.path.exists`). -/
def FsState : Type := String → Bool

/-- The `returned_path_must_exist` decorator: raise `FileNotFoundError(path)`
if the returned path does not exist, else return the path. -/
def returned_path_must_exist (ex : FsState) (path : String) :
    Except PyError String :=
  if ex path then Except.ok path else Except.error (PyError.fileNotFound path)

/-- The `return_None_if_doesnt_exist` decorator: return `None` if the
returned path does not exist, else return the path. -/
def return_None_if_doesnt_exist (ex : FsState) (path : String) : Option String :=
  if ex path then some path else none

/-- `ProjectFilesystem(root, name, calctype)` (the `name` defaulting logic is
irrelevant to path resolution). -/
structure ProjectFilesystem where
  root : String
  name : String
  calctype : String

/-- The undecorated path returned by `ProjectFilesystem.prim`:
`os.path.join(self.root, "prim.json")`. -/
def prim_path (fs : ProjectFilesystem) : String := fs.root ++ "/prim.json"

/-- `ProjectFilesystem.prim`, decorated with `@returned_path_must_exist`. -/
def prim (ex : FsState) (fs : ProjectFilesystem) : Except PyError String :=
  returned_path_must_exist ex (prim_path fs)

/-- `str.split("/")` over the character list of a Python string. -/
def splitParts : List Char → List (List Char)
  | [] => [[]]
  | ch :: rest =>
    let parts := splitParts rest
    if ch = '/' then [] :: parts
    else
      match parts with
      | [] => [[ch]]
      | p :: ps => (ch :: p) :: ps

/-- `scel, config = configname.split("/")`: Python tuple unpacking succeeds
exactly when the split yields two parts, raising `ValueError` otherwise. -/
def split2 (configname : String) : Option (String × String) :=
  match splitParts configname.data with
  | [a, b] => some (String.mk a, String.mk b)
  | _ => none

/-- The undecorated configuration-directory path:
`os.path.join(self.root, "training_data", scel, config)`. -/
def config_dir (fs : ProjectFilesystem) (scel config : String) : String :=
  fs.root ++ "/training_data/" ++ scel ++ "/" ++ config

/-- `ProjectFilesystem.configuration`, decorated with
`@returned_path_must_exist`: it raises `FileNotFoundError` when the
configuration directory does not exist. -/
def configuration (ex : FsState) (fs : ProjectFilesystem) (configname : String) :
    Except PyError String :=
  match split2 configname with
  | none => Except.error PyError.valueError
  | some (scel, config) => returned_path_must_exist ex (config_dir fs scel config)

/-- The per-configuration relaxed-properties path:
`os.path.join(self.configuration(configname), "calctype.<calctype>",
"properties.calc.json")`. -/
def props_path (fs : ProjectFilesystem) (scel config : String) : String :=
  config_dir fs scel config ++ "/calctype." ++ fs.calctype
    ++ "/properties.calc.json"

/-- `ProjectFilesystem.calc_properties`, decorated with
`@return_None_if_doesnt_exist`: the body first unpacks the configname
(`ValueError` if malformed), then calls `self.configuration(configname)` —
which is itself decorated `@returned_path_must_exist` and hence raises when
the configuration directory is missing — then joins the calctype path; the
decorator turns only a missing final file into `None`. -/
def calc_properties (ex : FsState) (fs : ProjectFilesystem)
    (configname : String) : Except PyError (Option String) :=
  match split2 configname with
  | none => Except.error PyError.valueError
  | some _ => do
    let confdir ← configuration ex fs configname
    let path := confdir ++ "/calctype." ++ fs.calctype
      ++ "/properties.calc.json"
    return return_None_if_doesnt_exist ex path

/-! ### Claim theorems for the filesystem error policies (C9) -/

/-- C9 (amended): `prim()` raises a missing-file error exactly when
`prim.json` does not exist and otherwise returns its path.  For a well-formed
configuration name, `calc_properties()` returns the absent value `None`
exactly when the configuration directory exists but the properties file does
not; when the configuration directory itself is missing (so the properties
file is missing too), the inner `configuration()` lookup raises a
missing-file error instead of returning `None`. -/
theorem c9_error_policies (ex : FsState) (fs : ProjectFilesystem)
    (configname scel config : String)
    (hsplit : split2 configname = some (scel, config)) :
    prim ex fs = (if ex (prim_path fs) then Except.ok (prim_path fs)
      else Except.error (PyError.fileNotFound (prim_path fs))) ∧
    calc_properties ex fs configname =
      (if ex (config_dir fs scel config) then
        Except.ok (if ex (props_path fs scel config)
          then some (props_path fs scel config) else none)
      else Except.error (PyError.fileNotFound (config_dir fs scel config))) := by
  refine ⟨rfl, ?_⟩
  unfold calc_properties configuration
  rw [hsplit]
  unfold returned_path_must_exist return_None_if_doesnt_exist
  dsimp only
  by_cases h1 : ex (config_dir fs scel config)
  · rw [if_pos h1, if_pos h1]
    rfl
  · rw [if_neg h1, if_neg h1]
    rfl

/-- The concrete project used by the C9 witness and counterexample. -/
def c9fs : ProjectFilesystem := ⟨"proj", "proj", "default"⟩

/-- The filesystem state of the C9 witness: only the configuration directory
exists; the properties file does not. -/
def c9exists : FsState :=
  fun p => p == "proj/training_data/SCEL1_1_1_1_0_0_0/0"

theorem c9_witness :
    prim c9exists c9fs = Except.error (PyError.fileNotFound "proj/prim.json") ∧
      calc_properties c9exists c9fs "SCEL1_1_1_1_0_0_0/0" = Except.ok none := by
  have h := c9_error_policies c9exists c9fs "SCEL1_1_1_1_0_0_0/0"
    "SCEL1_1_1_1_0_0_0" "0" (by decide)
  refine ⟨?_, ?_⟩
  · rw [h.1, if_neg (by decide)]
    rfl
  · rw [h.2, if_pos (by decide), if_neg (by decide)]

/-- C9 counterexample: on a filesystem where the configuration directory (and
hence the properties file) does not exist, the claim requires
`calc_properties` to return `None`; the code instead raises
`FileNotFoundError` for the configuration directory, from the inner
`configuration()` lookup. -/
theorem c9_counterexample :
    calc_properties (fun _ => false) c9fs "SCEL1_1_1_1_0_0_0/0"
        = Except.error
            (PyError.fileNotFound "proj/training_data/SCEL1_1_1_1_0_0_0/0") ∧
      calc_properties (fun _ => false) c9fs "SCEL1_1_1_1_0_0_0/0"
        ≠ Except.ok none := by
  have h := (c9_error_policies (fun _ => false) c9fs "SCEL1_1_1_1_0_0_0/0"
    "SCEL1_1_1_1_0_0_0" "0" (by decide)).2
  rw [h, if_neg (by simp)]
  exact ⟨rfl, fun hc => Except.noConfusion hc⟩

end PrimBin
